import Mathlib

/-!
Shallow embedding of monitor_ram.py (a RAM watchdog with pprof capture).
Python floats are modelled as rationals, Python ints as Int/Nat, a network
fetch as a function returning Option (none is a transport failure, i.e. a
requests RequestException), and a raised exception escaping a call as
Except.error.
-/

namespace MonitorRam

/-- Source constant DEFAULT_EWMA_ALPHA = 0.1. -/
def DEFAULT_EWMA_ALPHA : ℚ := 1/10

/-- Source constant DEFAULT_INTERVAL_SEC = 1. -/
def DEFAULT_INTERVAL_SEC : ℤ := 1

/-- Source constant DEFAULT_TRIGGER_LEVEL_MB = 1024. -/
def DEFAULT_TRIGGER_LEVEL_MB : ℤ := 1024

/-- The Ewma class: fields alpha and val, set by its initializer. -/
structure Ewma where
  alpha : ℚ
  val : ℚ
deriving DecidableEq

/-- Ewma initializer: stores alpha and the initial value. -/
def Ewma.init (alpha initial_value : ℚ) : Ewma :=
  ⟨alpha, initial_value⟩

/-- Ewma.update: val becomes (1-alpha)*val + alpha*new_sample. -/
def Ewma.update (e : Ewma) (new_sample : ℚ) : Ewma :=
  { e with val := (1 - e.alpha) * e.val + e.alpha * new_sample }

/-- Ewma.reset: val becomes the given value, alpha untouched. -/
def Ewma.reset (e : Ewma) (val : ℚ) : Ewma :=
  { e with val := val }

/-- The parsed CLI arguments of get_cli_args: one positional argument and
three optional ones. -/
structure Args where
  pprof_host : String
  ewma_alpha : ℚ
  interval : ℤ
  trigger : ℤ

/-- The argument names registered by get_cli_args, in registration order. -/
def cliOptionNames : List String :=
  ["pprof_host", "--ewma_alpha", "--interval", "--trigger"]

/-- The Args produced when no optional argument is given on the command line. -/
def defaultArgs (host : String) : Args :=
  ⟨host, DEFAULT_EWMA_ALPHA, DEFAULT_INTERVAL_SEC, DEFAULT_TRIGGER_LEVEL_MB⟩

/-- One iteration of the monitoring loop body in process(), restricted to the
trigger logic: update the EWMA with the current reading, compute
trigger = 1024*1024*args.trigger and delta = curr - avg_ram_usage.val (the
post-update value), fire when abs delta strictly exceeds the trigger, and on a
fire reset the filter to the raw reading. Returns the fire decision and the
filter state after the tick. -/
def monitorTick (trigger_mb : ℤ) (e : Ewma) (curr : ℚ) : Bool × Ewma :=
  let e1 := e.update curr
  let trigger : ℚ := 1024 * 1024 * (trigger_mb : ℚ)
  let delta : ℚ := curr - e1.val
  if |delta| > trigger then (true, e1.reset curr) else (false, e1)

/-- The monitoring loop run over a finite list of memory readings, one per
tick, recording each tick's fire decision and resulting filter state. -/
def monitorTrace (trigger_mb : ℤ) : Ewma → List ℚ → List (Bool × Ewma)
  | _, [] => []
  | e, s :: rest =>
    let r := monitorTick trigger_mb e s
    r :: monitorTrace trigger_mb r.2 rest

/-- The samples of the end-to-end scenario, in bytes (megabytes times 2^20,
matching the 1024*1024 factor the loop applies to the trigger). -/
def scenarioSamples : List ℚ :=
  [1000 * 1024 * 1024, 1000 * 1024 * 1024, 1000 * 1024 * 1024, 2200 * 1024 * 1024]

/-- The unit table of format_bytes. -/
def units : List String :=
  ["B", "KB", "MB", "GB", "TB", "PB", "EB", "ZB", "YB"]

/-- The while loop of format_bytes: divide by 1000 and advance the unit index
while the value is at least 1000 and the index is below the last unit. The
fuel argument only bounds the iteration count; since the index grows by one
per iteration and the guard requires it below units.length - 1, fuel
units.length never runs out before the guard fails. -/
def format_bytes_go (fuel : Nat) (bytes_num : ℚ) (unit_index : Nat) : ℚ × Nat :=
  match fuel with
  | 0 => (bytes_num, unit_index)
  | f + 1 =>
    if bytes_num ≥ 1000 ∧ unit_index < units.length - 1 then
      format_bytes_go f (bytes_num / 1000) (unit_index + 1)
    else
      (bytes_num, unit_index)

/-- Rendering of a nonnegative rational with two decimal places, the ".2f"
format applied by format_bytes. -/
def two_decimals (q : ℚ) : String :=
  let n : ℤ := ⌊q * 100 + 1/2⌋
  let whole := n / 100
  let frac := (n % 100).toNat
  toString whole ++ "." ++ (if frac < 10 then "0" else "") ++ toString frac

/-- format_bytes: scale into the unit table and render with two decimals and
the unit name. The index is always in range (proved below), so getD never
takes its fallback. -/
def format_bytes (bytes_num : ℚ) : String :=
  let r := format_bytes_go units.length bytes_num 0
  two_decimals r.1 ++ " " ++ units.getD r.2 ""

/-- The fixed ordered endpoint list pprof_requests of capture_pprof. -/
def pprof_requests : List String :=
  ["/debug/pprof/heap",
   "/debug/pprof/goroutine",
   "/debug/pprof/threadcreate",
   "/debug/pprof/block",
   "/debug/pprof/mutex",
   "/debug/pprof/profile?seconds=5",
   "/debug/pprof/trace?seconds=5"]

/-- Character scan for basename: keep the characters accumulated since the
last slash. -/
def basenameAux : List Char → List Char → List Char
  | [], acc => acc.reverse
  | c :: rest, acc =>
    if c = '/' then basenameAux rest [] else basenameAux rest (c :: acc)

/-- os.path.basename: the part of the path after the last slash. -/
def basename (p : String) : String :=
  String.mk (basenameAux p.toList [])

/-- The loop body of capture_pprof, with Python local-variable semantics for
the response variable. resp is the current binding of response (none while it
has never been assigned). A transport failure is caught and logged, after
which resp keeps its previous binding; the write step then runs
unconditionally. If response is still unbound at the write, Python raises an
unhandled NameError, modelled as Except.error; otherwise the currently bound
payload is written to the file named after the request basename. -/
def capture_pprof_go (fetch : String → Option String) (resp : Option String)
    (files : List (String × String)) :
    List String → Except Unit (List (String × String))
  | [] => Except.ok files
  | request :: rest =>
    let resp1 := match fetch request with
      | some c => some c
      | none => resp
    match resp1 with
    | none => Except.error ()
    | some c =>
      capture_pprof_go fetch (some c)
        (files ++ [(basename request ++ ".pb.gz", c)]) rest

/-- capture_pprof: iterate the endpoint battery in order against the given
fetch outcome, returning the list of (file name, content) pairs written, or
an escaping exception. -/
def capture_pprof (fetch : String → Option String) :
    Except Unit (List (String × String)) :=
  capture_pprof_go fetch none [] pprof_requests

/-- One collected process entry of capture_processes: the name and the seven
memory fields read from psutil. -/
structure ProcEntry where
  name : String
  rss : Nat
  vms : Nat
  shared : Nat
  text : Nat
  lib : Nat
  data : Nat
  dirty : Nat
deriving DecidableEq

/-- The collection loop of capture_processes over the processes yielded by
psutil.process_iter. A yielded process is some entry when still alive at
inspection time; none models a process that exited or became inaccessible
between enumeration and inspection, in which case the attribute reads raise
psutil.NoSuchProcess, which the loop does not catch: the whole call aborts,
modelled as Except.error. -/
def collect_processes_go (acc : List ProcEntry) :
    List (Option ProcEntry) → Except Unit (List ProcEntry)
  | [] => Except.ok acc
  | none :: _ => Except.error ()
  | some p :: rest => collect_processes_go (acc ++ [p]) rest

/-- The collection phase of capture_processes. -/
def collect_processes (procs : List (Option ProcEntry)) :
    Except Unit (List ProcEntry) :=
  collect_processes_go [] procs

/-- sorted(processes, key rss, reverse): stable sort, descending by rss. -/
def sorted_processes (l : List ProcEntry) : List ProcEntry :=
  l.mergeSort (fun a b => decide (b.rss ≤ a.rss))

/-- The slice sorted_processes[:100] written to the snapshot file. -/
def top100 (l : List ProcEntry) : List ProcEntry :=
  (sorted_processes l).take 100

/-- Right alignment to width 10, the format applied to every field of a
snapshot line. -/
def pad10 (s : String) : String :=
  if s.length < 10 then String.mk (List.replicate (10 - s.length) ' ') ++ s
  else s

/-- One line of processes_top100.txt for one process entry. -/
def format_proc_line (p : ProcEntry) : String :=
  "rss= " ++ pad10 (format_bytes p.rss) ++
  ",\tvms= " ++ pad10 (format_bytes p.vms) ++
  ",\tshared= " ++ pad10 (format_bytes p.shared) ++
  ",\ttext= " ++ pad10 (format_bytes p.text) ++
  ",\tlib= " ++ pad10 (format_bytes p.lib) ++
  ",\tdata= " ++ pad10 (format_bytes p.data) ++
  ",\tdirty= " ++ pad10 (format_bytes p.dirty) ++
  ",\tname= " ++ pad10 p.name ++ "\n"

/-- The content written to outputDirectory/processes_top100.txt for a given
collected process list. -/
def snapshot_content (l : List ProcEntry) : String :=
  String.join ((top100 l).map format_proc_line)

/-- capture_processes end to end: collect the yielded processes, then sort,
truncate to the top 100 and render the file content; an uncaught
psutil.NoSuchProcess aborts the call before anything is written. -/
def capture_processes (procs : List (Option ProcEntry)) : Except Unit String :=
  match collect_processes procs with
  | Except.error e => Except.error e
  | Except.ok l => Except.ok (snapshot_content l)

/-- Running the Ewma filter from a seed through a list of samples, the value
after the final update. -/
def ewma_run (a s0 : ℚ) (samples : List ℚ) : ℚ :=
  (samples.foldl Ewma.update (Ewma.init a s0)).val

/-- The closed-form weighted sum stated by the spec for the filter value after
the updates (spec-side definition, to be compared with the source filter). -/
def ewma_closed_form (a s0 : ℚ) (samples : List ℚ) : ℚ :=
  (1 - a) ^ samples.length * s0 +
    ∑ i ∈ Finset.range samples.length,
      a * (1 - a) ^ (samples.length - 1 - i) * samples.getD i 0

/-- Modelled from the spec: the relative-fraction trigger variant, absent from
the source. It fires exactly when the raw sample strictly exceeds the
pre-update average times (1 + sensitivity). -/
def relative_fire (sensitivity avg sample : ℚ) : Bool :=
  decide (sample > avg * (1 + sensitivity))

/-- The operations the program ever applies to an Ewma instance after
initialization. -/
inductive EwmaOp where
  | update (sample : ℚ)
  | reset (value : ℚ)

/-- Application of one Ewma operation to a filter state. -/
def applyOp (e : Ewma) : EwmaOp → Ewma
  | EwmaOp.update s => e.update s
  | EwmaOp.reset v => e.reset v

/-- A synthetic process list of 101 entries with pairwise distinct
resident-set sizes, used to instantiate the top-100 theorem. -/
def witnessList : List ProcEntry :=
  (List.range 101).map (fun i => ⟨"p", i, 0, 0, 0, 0, 0, 0⟩)

/-- A concrete alive process entry. -/
def procA : ProcEntry := ⟨"alpha", 500, 0, 0, 0, 0, 0, 0⟩

/-- Another concrete alive process entry. -/
def procB : ProcEntry := ⟨"beta", 300, 0, 0, 0, 0, 0, 0⟩

section

attribute [local semireducible] Rat.add Rat.mul Rat.inv Rat.sub

/-- Ewma.update never touches alpha. -/
lemma update_alpha (e : Ewma) (s : ℚ) : (e.update s).alpha = e.alpha :=
  rfl

/-- Folding updates over a sample list never touches alpha. -/
lemma foldl_update_alpha (l : List ℚ) (e : Ewma) :
    (l.foldl Ewma.update e).alpha = e.alpha := by
  induction l generalizing e with
  | nil => rfl
  | cons s rest ih => rw [List.foldl_cons, ih, update_alpha]

/-- The post-update deviation factors through the pre-update deviation. -/
lemma update_deviation (e : Ewma) (c : ℚ) :
    c - (e.update c).val = (1 - e.alpha) * (c - e.val) := by
  simp only [Ewma.update]
  ring

/-- The fire decision of one monitor tick, characterized against the
pre-update average. -/
lemma monitorTick_fire_iff (trig : ℤ) (e : Ewma) (curr : ℚ) :
    (monitorTick trig e curr).1 = true ↔
      |1 - e.alpha| * |curr - e.val| > 1024 * 1024 * (trig : ℚ) := by
  have habs : |curr - (e.update curr).val| = |1 - e.alpha| * |curr - e.val| := by
    rw [update_deviation, abs_mul]
  by_cases h : |curr - (e.update curr).val| > 1024 * 1024 * (trig : ℚ)
  · simp only [monitorTick, if_pos h]
    rw [← habs]
    simpa using h
  · simp only [monitorTick, if_neg h]
    rw [← habs]
    simpa using h

/-- C1: for the fixed ordered battery of pprof endpoints, a transport failure
is NOT skipped as the claim states: if the very first fetch fails, the write
step reads the never-assigned response variable and a NameError escapes
capture_pprof with no file written; if a later fetch fails, the write step
still runs and writes a file for the failed endpoint, holding the payload of
the previous successful fetch, so with one failure all seven files are
written instead of six. -/
theorem capture_pprof_failure_not_skipped :
    capture_pprof (fun r => if r = "/debug/pprof/heap" then none else some r) =
      Except.error () ∧
    capture_pprof (fun r => if r = "/debug/pprof/goroutine" then none else some r) =
      Except.ok [("heap.pb.gz", "/debug/pprof/heap"),
                 ("goroutine.pb.gz", "/debug/pprof/heap"),
                 ("threadcreate.pb.gz", "/debug/pprof/threadcreate"),
                 ("block.pb.gz", "/debug/pprof/block"),
                 ("mutex.pb.gz", "/debug/pprof/mutex"),
                 ("profile?seconds=5.pb.gz", "/debug/pprof/profile?seconds=5"),
                 ("trace?seconds=5.pb.gz", "/debug/pprof/trace?seconds=5")] :=
  ⟨rfl, rfl⟩

/-- C2: in the absolute-deviation variant, a tick fires exactly when the
absolute deviation of the raw sample from the post-update average strictly
exceeds the trigger converted from megabytes to bytes; equivalently, when
the absolute pre-update deviation scaled by the absolute value of 1 - alpha
exceeds it. The filter is updated with the sample regardless of the decision,
alpha is untouched, a fire hard-resets the value to the raw sample, and for a
fixed filter state the decision is monotone: any sample at least as far from
the pre-update average as a firing sample also fires. -/
theorem absolute_trigger_spec (trig : ℤ) (e : Ewma) (curr : ℚ) :
    ((monitorTick trig e curr).1 = true ↔
        |curr - (e.update curr).val| > 1024 * 1024 * (trig : ℚ)) ∧
    ((monitorTick trig e curr).1 = true ↔
        |1 - e.alpha| * |curr - e.val| > 1024 * 1024 * (trig : ℚ)) ∧
    (monitorTick trig e curr).2.alpha = e.alpha ∧
    ((monitorTick trig e curr).1 = false →
        (monitorTick trig e curr).2 = e.update curr) ∧
    ((monitorTick trig e curr).1 = true →
        (monitorTick trig e curr).2.val = curr) ∧
    (∀ c2 : ℚ, (monitorTick trig e curr).1 = true →
        |curr - e.val| ≤ |c2 - e.val| → (monitorTick trig e c2).1 = true) := by
  refine ⟨?_, monitorTick_fire_iff trig e curr, ?_, ?_, ?_, ?_⟩
  · by_cases h : |curr - (e.update curr).val| > 1024 * 1024 * (trig : ℚ)
    · simp only [monitorTick, if_pos h]
      simpa using h
    · simp only [monitorTick, if_neg h]
      simpa using h
  · by_cases h : |curr - (e.update curr).val| > 1024 * 1024 * (trig : ℚ)
    · simp only [monitorTick, if_pos h, Ewma.reset, update_alpha]
    · simp only [monitorTick, if_neg h, update_alpha]
  · intro hf
    by_cases h : |curr - (e.update curr).val| > 1024 * 1024 * (trig : ℚ)
    · simp only [monitorTick, if_pos h] at hf
      exact absurd hf (by simp)
    · simp only [monitorTick, if_neg h]
  · intro hf
    by_cases h : |curr - (e.update curr).val| > 1024 * 1024 * (trig : ℚ)
    · simp only [monitorTick, if_pos h, Ewma.reset]
    · simp only [monitorTick, if_neg h] at hf
      exact absurd hf (by simp)
  · intro c2 hf hle
    rw [monitorTick_fire_iff] at hf ⊢
    calc 1024 * 1024 * (trig : ℚ)
        < |1 - e.alpha| * |curr - e.val| := hf
      _ ≤ |1 - e.alpha| * |c2 - e.val| :=
          mul_le_mul_of_nonneg_left hle (abs_nonneg _)

/-- Instantiation of the absolute-trigger theorem: with alpha 0, value 0 and
trigger 1 MB, a sample of 2 MB fires, so by monotonicity 4 MB fires too. -/
theorem absolute_trigger_spec_witness :
    (monitorTick 1 (Ewma.init 0 0) 4194304).1 = true :=
  (absolute_trigger_spec 1 (Ewma.init 0 0) 2097152).2.2.2.2.2 4194304
    (by decide) (by decide)

set_option maxRecDepth 8000 in
/-- C4: with alpha 0.1 and absolute threshold 1024 MB, starting the filter at
1000 MB and feeding 1000, 1000, 1000, 2200 MB, the loop does not fire on the
first three ticks, fires on the fourth, and the filter value is hard-reset to
2200 MB immediately after the fire. -/
theorem end_to_end_scenario :
    (monitorTrace DEFAULT_TRIGGER_LEVEL_MB
        (Ewma.init DEFAULT_EWMA_ALPHA (1000 * 1024 * 1024))
        scenarioSamples).map Prod.fst = [false, false, false, true] ∧
    ((monitorTrace DEFAULT_TRIGGER_LEVEL_MB
        (Ewma.init DEFAULT_EWMA_ALPHA (1000 * 1024 * 1024))
        scenarioSamples).getD 3 (false, Ewma.init 0 0)).2.val =
      2200 * 1024 * 1024 := by
  constructor <;> decide

/-- C5: a process that exits between enumeration and inspection is NOT
skipped as the claim states: the uncaught psutil.NoSuchProcess aborts the
whole snapshot, so the two healthy neighbours are dropped as well and no
file is written. -/
theorem capture_processes_race_aborts :
    collect_processes [some procA, none, some procB] = Except.error () ∧
    capture_processes [some procA, none, some procB] = Except.error () :=
  ⟨rfl, rfl⟩

/-- C9: reset sets the value to exactly the given baseline, leaves alpha
unchanged, and any subsequent update sequence from the reset state coincides
with the same updates applied to a freshly initialized filter with the same
alpha and that seed value. -/
theorem reset_fresh_equiv (e : Ewma) (v : ℚ) (l : List ℚ) :
    (e.reset v).val = v ∧ (e.reset v).alpha = e.alpha ∧
    l.foldl Ewma.update (e.reset v) = l.foldl Ewma.update (Ewma.init e.alpha v) :=
  ⟨rfl, rfl, rfl⟩

/-- C10: after any sequence of update and reset operations, alpha still
equals the value supplied at initialization. -/
theorem alpha_never_modified (a v0 : ℚ) (ops : List EwmaOp) :
    (ops.foldl applyOp (Ewma.init a v0)).alpha = a := by
  have h : ∀ (l : List EwmaOp) (e : Ewma), (l.foldl applyOp e).alpha = e.alpha := by
    intro l
    induction l with
    | nil => intro e; rfl
    | cons op rest ih =>
      intro e
      rw [List.foldl_cons, ih]
      cases op <;> rfl
  exact h ops (Ewma.init a v0)

/-- C8: format_bytes renders 0 as 0.00 B and 1500 as 1.50 KB, and for every
input the unit index produced by the scaling loop stays strictly below the
length of the unit table, so the table access is never out of range. -/
theorem format_bytes_spec :
    format_bytes 0 = "0.00 B" ∧ format_bytes 1500 = "1.50 KB" ∧
    ∀ x : ℚ, (format_bytes_go units.length x 0).2 < units.length := by
  refine ⟨by decide, by decide, ?_⟩
  intro x
  have h : ∀ (fuel : Nat) (y : ℚ) (i : Nat), i < units.length →
      (format_bytes_go fuel y i).2 < units.length := by
    intro fuel
    induction fuel with
    | zero =>
      intro y i hi
      simpa only [format_bytes_go] using hi
    | succ f ih =>
      intro y i hi
      simp only [format_bytes_go]
      by_cases hc : y ≥ 1000 ∧ i < units.length - 1
      · rw [if_pos hc]
        refine ih (y / 1000) (i + 1) ?_
        have h2 := hc.2
        simp only [units, List.length_cons, List.length_nil] at h2 ⊢
        omega
      · rw [if_neg hc]
        exact hi
  exact h units.length x 0 (by simp [units])

/-- C3: the filter value after seeding with the first sample and folding the
remaining samples in order equals the closed-form geometrically weighted sum
stated by the spec. -/
theorem ewma_run_closed_form (a s0 : ℚ) (samples : List ℚ) :
    ewma_run a s0 samples = ewma_closed_form a s0 samples := by
  induction samples using List.reverseRecOn with
  | nil => simp [ewma_run, ewma_closed_form, Ewma.init]
  | append_singleton l s ih =>
    have halpha : (List.foldl Ewma.update (Ewma.init a s0) l).alpha = a :=
      foldl_update_alpha l (Ewma.init a s0)
    have hL : ewma_run a s0 (l ++ [s]) = (1 - a) * ewma_run a s0 l + a * s := by
      unfold ewma_run
      rw [List.foldl_append]
      simp [Ewma.update, halpha]
    rw [hL, ih]
    unfold ewma_closed_form
    rw [List.length_append, List.length_singleton]
    rw [Finset.sum_range_succ]
    have hlast : (l ++ [s]).getD l.length 0 = s := by
      rw [List.getD_append_right l [s] 0 l.length (le_refl l.length)]
      simp
    have hcongr : ∀ i ∈ Finset.range l.length,
        a * (1 - a) ^ (l.length + 1 - 1 - i) * (l ++ [s]).getD i 0 =
          (1 - a) * (a * (1 - a) ^ (l.length - 1 - i) * l.getD i 0) := by
      intro i hi
      rw [Finset.mem_range] at hi
      rw [List.getD_append l [s] 0 i hi]
      have hexp : l.length + 1 - 1 - i = (l.length - 1 - i) + 1 := by omega
      rw [hexp, pow_succ]
      ring
    rw [Finset.sum_congr rfl hcongr, ← Finset.mul_sum, hlast]
    have h0 : l.length + 1 - 1 - l.length = 0 := by omega
    rw [h0, pow_zero]
    ring

/-- The collection loop keeps every entry, in order, when every process is
still alive at inspection time. -/
lemma collect_processes_go_all_alive (l : List ProcEntry) :
    ∀ acc, collect_processes_go acc (l.map some) = Except.ok (acc ++ l) := by
  induction l with
  | nil =>
    intro acc
    simp [collect_processes_go]
  | cons p rest ih =>
    intro acc
    simp only [List.map_cons, collect_processes_go]
    rw [ih (acc ++ [p])]
    simp

/-- The collection phase returns exactly the enumerated entries when no
process vanishes mid-enumeration. -/
lemma collect_processes_all_alive (l : List ProcEntry) :
    collect_processes (l.map some) = Except.ok l := by
  unfold collect_processes
  rw [collect_processes_go_all_alive l []]
  simp

/-- The sort of capture_processes is a permutation of its input. -/
lemma sorted_processes_perm (l : List ProcEntry) : (sorted_processes l).Perm l :=
  List.mergeSort_perm l _

/-- The sort of capture_processes is weakly descending in rss. -/
lemma sorted_processes_pairwise (l : List ProcEntry) :
    (sorted_processes l).Pairwise (fun a b => b.rss ≤ a.rss) := by
  have h := @List.sorted_mergeSort ProcEntry
    (fun a b : ProcEntry => decide (b.rss ≤ a.rss))
    (by
      intro a b c hab hbc
      simp only [decide_eq_true_eq] at hab hbc ⊢
      omega)
    (by
      intro a b
      simp only [Bool.or_eq_true, decide_eq_true_eq]
      omega)
    l
  exact h.imp (by
    intro a b hb
    simpa using hb)

/-- C7 counterexample: no parsed configuration makes the monitor tick behave
as the relative-fraction variant with sensitivity 0.8; the decision rule is
the absolute one for every configuration, and it deviates from the relative
rule at an average of 1 with sample 0 versus an average of 0 with sample 1. -/
theorem no_relative_variant_configurable :
    ¬ ∃ a : Args, ∀ (e : Ewma) (curr : ℚ),
        (monitorTick a.trigger e curr).1 = relative_fire (8/10) e.val curr := by
  rintro ⟨a, h⟩
  have h1 := h (Ewma.init 0 1) 0
  have h2 := h (Ewma.init 0 0) 1
  have i1 : (monitorTick a.trigger (Ewma.init 0 1) 0).1 = true ↔
      1024 * 1024 * (a.trigger : ℚ) < 1 := by
    rw [monitorTick_fire_iff]
    norm_num [Ewma.init]
  have i2 : (monitorTick a.trigger (Ewma.init 0 0) 1).1 = true ↔
      1024 * 1024 * (a.trigger : ℚ) < 1 := by
    rw [monitorTick_fire_iff]
    norm_num [Ewma.init]
  have r1 : relative_fire (8/10) (Ewma.init 0 1).val 0 = false := by
    simp only [relative_fire, Ewma.init, decide_eq_false_iff_not]
    norm_num
  have r2 : relative_fire (8/10) (Ewma.init 0 0).val 1 = true := by
    simp only [relative_fire, Ewma.init, decide_eq_true_eq]
    norm_num
  rw [r1] at h1
  rw [r2] at h2
  have hlt := i2.mp h2
  have hfire := i1.mpr hlt
  rw [h1] at hfire
  exact absurd hfire (by simp)

/-- C7 amended: the CLI surface registers exactly the positional host plus the
alpha, interval and absolute megabyte trigger options, with trigger default
1024; for every configuration the tick decision follows the absolute rule,
so only the absolute-deviation variant is exposed. -/
theorem only_absolute_variant_exposed :
    cliOptionNames = ["pprof_host", "--ewma_alpha", "--interval", "--trigger"] ∧
    DEFAULT_TRIGGER_LEVEL_MB = 1024 ∧
    (defaultArgs "host").trigger = 1024 ∧
    ∀ (a : Args) (e : Ewma) (curr : ℚ),
      ((monitorTick a.trigger e curr).1 = true ↔
        |1 - e.alpha| * |curr - e.val| > 1024 * 1024 * (a.trigger : ℚ)) :=
  ⟨rfl, rfl, rfl, fun a e curr => monitorTick_fire_iff a.trigger e curr⟩

/-- C6: for a collected process list longer than 100 with pairwise distinct
resident-set sizes, the snapshot slice holds exactly 100 entries, it together
with the leftover entries is a permutation of the input, it is strictly
descending in rss, every omitted entry has smaller rss than every kept one,
and the capture writes exactly one formatted line per kept entry. -/
theorem top100_correct (l : List ProcEntry)
    (hlen : 100 < l.length)
    (hdist : l.Pairwise (fun a b => a.rss ≠ b.rss)) :
    (top100 l).length = 100 ∧
    (top100 l ++ (sorted_processes l).drop 100).Perm l ∧
    (top100 l).Pairwise (fun a b => b.rss < a.rss) ∧
    (∀ x ∈ (sorted_processes l).drop 100, ∀ y ∈ top100 l, x.rss < y.rss) ∧
    capture_processes (l.map some) =
      Except.ok (String.join ((top100 l).map format_proc_line)) := by
  have hperm := sorted_processes_perm l
  have hpair_le := sorted_processes_pairwise l
  have hpair_ne : (sorted_processes l).Pairwise (fun a b => a.rss ≠ b.rss) :=
    (List.Perm.pairwise_iff (fun hxy => hxy.symm) hperm).mpr hdist
  have hpair_lt : (sorted_processes l).Pairwise (fun a b => b.rss < a.rss) :=
    (hpair_le.and hpair_ne).imp
      (fun h => lt_of_le_of_ne h.1 (Ne.symm h.2))
  refine ⟨?_, ?_, ?_, ?_, ?_⟩
  · unfold top100
    rw [List.length_take, hperm.length_eq]
    omega
  · unfold top100
    rw [List.take_append_drop]
    exact hperm
  · exact List.Pairwise.sublist (List.take_sublist _ _) hpair_lt
  · have hsplit := hpair_lt
    rw [← List.take_append_drop 100 (sorted_processes l)] at hsplit
    have hcross := (List.pairwise_append.mp hsplit).2.2
    exact fun x hx y hy => hcross y hy x hx
  · unfold capture_processes
    rw [collect_processes_all_alive]
    rfl

/-- Instantiation of the top-100 theorem on a synthetic list of 101 processes
with distinct resident-set sizes. -/
theorem top100_correct_witness :
    100 < witnessList.length ∧ (top100 witnessList).length = 100 :=
  ⟨by decide, (top100_correct witnessList (by decide) (by decide)).1⟩

end

end MonitorRam
